import Mathlib

/-!
Verification of the STX backtrace / signal-handling core (`src/backtrace.cc`)
and the `SourceLocation` capture header, via a shallow embedding in Lean.

External facilities (the absl stack walkers, `absl::Symbolize`, and the OS
signal registration call `std::signal`) are modelled as explicit inputs:
the true stacks are lists of addresses, the symbol table is a partial map
from addresses to names, and the OS is a record of per-signal dispositions
plus an acceptance predicate for registration.
-/

namespace Stx

/-- A resolved symbol: wraps the shared character buffer as captured at
resolution time (`backtrace::Symbol` holding a `CharSpan` over the buffer). -/
structure Symbol where
  data : List Char
deriving Repr, DecidableEq

/-- `Symbol::raw()`: reads the buffer as a C string, up to the first NUL. -/
def Symbol.raw (s : Symbol) : List Char :=
  s.data.takeWhile (fun c => c ≠ '\x00')

/-- One stack frame (`backtrace::Frame`): optional instruction pointer,
optional stack pointer, optional resolved symbol. -/
structure Frame where
  ip : Option Nat
  sp : Option Nat
  symbol : Option Symbol
deriving Repr, DecidableEq

/-- Model of `absl::GetStackTrace(result, max_depth, skip_count)`: fills
`result` with up to `max_depth` return addresses of the current stack,
skipping the first `skip_count` frames; returns the filled entries. -/
def GetStackTrace (stack : List Nat) (max_depth skip_count : Nat) : List Nat :=
  (stack.drop skip_count).take max_depth

/-- Model of `absl::GetStackFrames(result, sizes, max_depth, skip_count)`
restricted to the frame-pointer array it fills (the sizes array is unused
by `trace`). -/
def GetStackFrames (stack : List Nat) (max_depth skip_count : Nat) : List Nat :=
  (stack.drop skip_count).take max_depth

/-- Model of `absl::Symbolize(pc, out, out_size)` for a symbol table
`symtab`: on success writes the NUL-terminated (possibly truncated) name
into the buffer and returns `true`; on failure returns `false` and leaves
the buffer as it was (the failure mode the defensive `memset` guards
against). -/
def Symbolize (symtab : Nat → Option (List Char)) (pc : Nat)
    (buf : List Char) : Bool × List Char :=
  match symtab pc with
  | some name =>
      let n := min name.length (buf.length - 1)
      (true, name.take n ++ '\x00' :: buf.drop (n + 1))
  | none => (false, buf)

/-- The frame built by one iteration of the loop in `backtrace::trace`:
the buffer is zeroed (`std::memset(symbol, 0, max_len)`), resolution is
attempted on `ips[i]`, the symbol is wrapped only on success, and the
address pair is always set. -/
def frameAt (ips sps : List Nat) (symtab : Nat → Option (List Char))
    (maxLen i : Nat) : Frame :=
  let res := Symbolize symtab (ips.getD i 0) (List.replicate maxLen '\x00')
  { symbol := if res.1 then some ⟨res.2⟩ else none
    ip := some (ips.getD i 0)
    sp := some (sps.getD i 0) }

/-- The buffer contents after one iteration of the loop body (zeroed, then
possibly written by `Symbolize`); threaded into the next iteration. -/
def bufAfter (ips : List Nat) (symtab : Nat → Option (List Char))
    (maxLen i : Nat) : List Char :=
  (Symbolize symtab (ips.getD i 0) (List.replicate maxLen '\x00')).2

/-- The loop `for (int i = 0; i < depth; i++)` of `backtrace::trace`,
recursing over the remaining iteration indices. Each iteration zeroes the
shared buffer, attempts resolution, builds the frame, and invokes the
callback with `(frame, depth - i)`; a `true` return breaks the loop.
Returns the list of callback invocations in order. The incoming buffer
`buf` is the shared `char symbol[]` state carried between iterations. -/
def traceLoop (ips sps : List Nat) (symtab : Nat → Option (List Char))
    (callback : Frame → Nat → Bool) (depth maxLen : Nat) :
    List Nat → List Char → List (Frame × Nat)
  | [], _ => []
  | i :: rest, buf =>
    let buf0 := List.replicate maxLen '\x00'
    let res := Symbolize symtab (ips.getD i 0) buf0
    let frame : Frame :=
      { symbol := if res.1 then some ⟨res.2⟩ else none
        ip := some (ips.getD i 0)
        sp := some (sps.getD i 0) }
    if callback frame (depth - i) then [(frame, depth - i)]
    else (frame, depth - i) ::
      traceLoop ips sps symtab callback depth maxLen rest res.2

/-- Result of a `trace()` call: the returned depth and the sequence of
visitor invocations `(frame, displayIndex)` in order. -/
structure TraceResult where
  depth : Nat
  visits : List (Frame × Nat)
deriving Repr, DecidableEq

/-- `backtrace::trace(callback)`: captures the two walks with
`skip_count = 1` into fixed arrays of `STX_MAX_STACK_FRAME_DEPTH`
(`maxFrames`) entries, takes `depth` as the smaller of the two reported
depths, and runs the visitation loop with the symbol buffer of
`STX_SYMBOL_BUFFER_SIZE` (`maxLen`) zero-initialized at declaration.
`ipStack` and `spStack` are the true stacks seen by the two independent
walkers. -/
def trace (ipStack spStack : List Nat) (symtab : Nat → Option (List Char))
    (callback : Frame → Nat → Bool) (maxFrames maxLen : Nat) : TraceResult :=
  let skip_count := 1
  let ips := GetStackTrace ipStack maxFrames skip_count
  let sps := GetStackFrames spStack maxFrames skip_count
  let ips_depth := ips.length
  let sps_depth := sps.length
  let depth := if ips_depth > sps_depth then sps_depth else ips_depth
  { depth := depth
    visits := traceLoop ips sps symtab callback depth maxLen
      (List.range depth) (List.replicate maxLen '\x00') }

/-! ## Signal handling (`backtrace::handle_signal`, `signal_handler`) -/

/-- POSIX signal numbers as on the target platform (Linux values). -/
def SIGSEGV : Nat := 11

/-- Illegal-instruction signal number. -/
def SIGILL : Nat := 4

/-- Floating-point-exception signal number. -/
def SIGFPE : Nat := 8

/-- Termination-request signal number (an example of an unsupported
signal). -/
def SIGTERM : Nat := 15

/-- `backtrace::SignalError`. -/
inductive SignalError where
  | Unknown
  | SigErr
deriving Repr, DecidableEq

/-- A process signal disposition: the OS default (`SIG_DFL`), the
library's internal `signal_handler`, or some other program-installed
handler. -/
inductive Handler where
  | dfl
  | internal
  | other (id : Nat)
deriving Repr, DecidableEq

/-- OS state relevant to `std::signal`: per-signal dispositions and
whether the OS accepts a registration for a given signal. -/
structure OS where
  disposition : Nat → Handler
  accepts : Nat → Bool

/-- Model of `std::signal(sig, h)`: on acceptance, replaces the
disposition for `sig` with `h` and returns the previous handler; on
rejection returns `SIG_ERR` (`none`) and leaves every disposition
unchanged. -/
def stdSignal (os : OS) (sig : Nat) (h : Handler) : Option Handler × OS :=
  if os.accepts sig then
    (some (os.disposition sig),
      { os with disposition := fun s => if s = sig then h else os.disposition s })
  else (none, os)

/-- `backtrace::handle_signal(signal)`: rejects signals outside
`SIGSEGV / SIGILL / SIGFPE` with `Unknown`, otherwise registers the
internal handler via `std::signal`, mapping `SIG_ERR` to `SigErr` and
otherwise returning the previous handler. Returns the result paired with
the OS state afterwards. -/
def handle_signal (os : OS) (sig : Nat) : Except SignalError Handler × OS :=
  if sig ≠ SIGSEGV ∧ sig ≠ SIGILL ∧ sig ≠ SIGFPE then
    (Except.error SignalError.Unknown, os)
  else
    match stdSignal os sig Handler.internal with
    | (none, os1) => (Except.error SignalError.SigErr, os1)
    | (some prev, os1) => (Except.ok prev, os1)

/-- Observable actions of the installed handler: a write to `stderr`, a
full crash report (`print_backtrace()`), or `std::abort()`. -/
inductive Event where
  | write (s : String)
  | backtraceReport
  | abort
deriving Repr, DecidableEq

/-- The diagnostic line the `switch` in `signal_handler` writes for each
supported signal (other values write nothing in the switch). -/
def diagnostic (sig : Nat) : List Event :=
  if sig = SIGSEGV then
    [Event.write "Received \x27SIGSEGV\x27 signal. Invalid memory access occurred (segmentation fault)."]
  else if sig = SIGILL then
    [Event.write "Received \x27SIGILL\x27 signal. Invalid program image (illegal/invalid instruction, i.e. nullptr dereferencing)."]
  else if sig = SIGFPE then
    [Event.write "Received \x27SIGFPE\x27 signal. Erroneous arithmetic operation (i.e. divide by zero)."]
  else []

/-- The installed internal handler `signal_handler(int)` as its sequence
of observable actions: a blank-line write, the signal-specific diagnostic,
`print_backtrace()`, then `std::abort()` — the sequence ends at `abort`,
so control never returns to the faulted code (`[[noreturn]]`). -/
def signal_handler (sig : Nat) : List Event :=
  Event.write "\n\n" :: diagnostic sig ++ [Event.backtraceReport, Event.abort]

/-! ## `SourceLocation` (`source_location.h`) -/

/-- `stx::SourceLocation`. -/
structure SourceLocation where
  line_ : Nat
  column_ : Nat
  file_ : String
  func_ : String
deriving Repr, DecidableEq

/-- Compile-time capability detection (`STX_HAS_BUILTIN(...)`) together
with the values the compiler builtins would supply at the call site. -/
structure Builtins where
  hasFILE : Bool
  fileVal : String
  hasFUNCTION : Bool
  funcVal : String
  hasLINE : Bool
  lineVal : Nat
  hasCOLUMN : Bool
  columnVal : Nat

/-- `SourceLocation::current()` with all arguments defaulted: each
argument is the compiler builtin when available, otherwise the fixed
fallback written in the header (`"unknown"` for file and function, `0`
for line and column); the body copies the four arguments into the
fields. -/
def SourceLocation.current (b : Builtins) : SourceLocation :=
  { line_ := if b.hasLINE then b.lineVal else 0
    column_ := if b.hasCOLUMN then b.columnVal else 0
    file_ := if b.hasFILE then b.fileVal else "unknown"
    func_ := if b.hasFUNCTION then b.funcVal else "unknown" }

/-- `SourceLocation::file_name()`. -/
def SourceLocation.file_name (l : SourceLocation) : String := l.file_

/-- `SourceLocation::function_name()`. -/
def SourceLocation.function_name (l : SourceLocation) : String := l.func_

/-- `SourceLocation::line()`. -/
def SourceLocation.line (l : SourceLocation) : Nat := l.line_

/-- `SourceLocation::column()`. -/
def SourceLocation.column (l : SourceLocation) : Nat := l.column_

/-! ## Lemmas about the visitation loop -/

/-- Unfolding one loop iteration: the frame built is `frameAt` (the
incoming buffer is dead, because the body zeroes the buffer first), and
the buffer handed to the next iteration is `bufAfter`. -/
theorem traceLoop_cons (ips sps : List Nat) (symtab : Nat → Option (List Char))
    (cb : Frame → Nat → Bool) (depth maxLen : Nat) (i : Nat) (rest : List Nat)
    (buf : List Char) :
    traceLoop ips sps symtab cb depth maxLen (i :: rest) buf =
      (if cb (frameAt ips sps symtab maxLen i) (depth - i) then
        [(frameAt ips sps symtab maxLen i, depth - i)]
      else
        (frameAt ips sps symtab maxLen i, depth - i) ::
          traceLoop ips sps symtab cb depth maxLen rest
            (bufAfter ips symtab maxLen i)) := rfl

/-- The loop performs at most one visit per iteration index. -/
theorem traceLoop_length_le (ips sps : List Nat)
    (symtab : Nat → Option (List Char)) (cb : Frame → Nat → Bool)
    (depth maxLen : Nat) :
    ∀ (l : List Nat) (buf : List Char),
      (traceLoop ips sps symtab cb depth maxLen l buf).length ≤ l.length := by
  intro l
  induction l with
  | nil => intro buf; simp [traceLoop]
  | cons i rest ih =>
    intro buf
    rw [traceLoop_cons]
    split
    · simp
    · simpa using ih (bufAfter ips symtab maxLen i)

/-- A nonempty iteration range produces at least one visit. -/
theorem traceLoop_pos (ips sps : List Nat) (symtab : Nat → Option (List Char))
    (cb : Frame → Nat → Bool) (depth maxLen : Nat) (i : Nat) (rest : List Nat)
    (buf : List Char) :
    0 < (traceLoop ips sps symtab cb depth maxLen (i :: rest) buf).length := by
  rw [traceLoop_cons]
  split <;> simp

/-- The `k`-th visit is exactly the frame/displayIndex pair built for the
`k`-th iteration index — independent of the incoming buffer state. -/
theorem traceLoop_get (ips sps : List Nat) (symtab : Nat → Option (List Char))
    (cb : Frame → Nat → Bool) (depth maxLen : Nat) :
    ∀ (l : List Nat) (buf : List Char) (k : Nat),
      k < (traceLoop ips sps symtab cb depth maxLen l buf).length →
      ∃ j, l.get? k = some j ∧
        (traceLoop ips sps symtab cb depth maxLen l buf).get? k =
          some (frameAt ips sps symtab maxLen j, depth - j) := by
  intro l
  induction l with
  | nil => intro buf k h; simp [traceLoop] at h
  | cons i rest ih =>
    intro buf k h
    rw [traceLoop_cons] at h ⊢
    by_cases hc : cb (frameAt ips sps symtab maxLen i) (depth - i) = true
    · simp only [hc, if_true] at h ⊢
      match k with
      | 0 => exact ⟨i, rfl, rfl⟩
      | k + 1 => simp at h
    · simp only [hc, if_false, Bool.false_eq_true] at h ⊢
      match k with
      | 0 => exact ⟨i, rfl, rfl⟩
      | k + 1 =>
        simp only [List.length_cons, Nat.add_lt_add_iff_right] at h
        simpa using ih (bufAfter ips symtab maxLen i) k h

/-- If the visitor returns `true` (stop) at the `k`-th visit, the loop
ends immediately: exactly `k + 1` visits happen. -/
theorem traceLoop_stop (ips sps : List Nat) (symtab : Nat → Option (List Char))
    (cb : Frame → Nat → Bool) (depth maxLen : Nat) :
    ∀ (l : List Nat) (buf : List Char) (k : Nat) (v : Frame × Nat),
      (traceLoop ips sps symtab cb depth maxLen l buf).get? k = some v →
      cb v.1 v.2 = true →
      (traceLoop ips sps symtab cb depth maxLen l buf).length = k + 1 := by
  intro l
  induction l with
  | nil => intro buf k v h _; simp [traceLoop] at h
  | cons i rest ih =>
    intro buf k v h hstop
    rw [traceLoop_cons] at h ⊢
    by_cases hc : cb (frameAt ips sps symtab maxLen i) (depth - i) = true
    · simp only [hc, if_true] at h ⊢
      match k with
      | 0 => rfl
      | k + 1 => simp at h
    · simp only [hc, if_false, Bool.false_eq_true] at h ⊢
      match k with
      | 0 =>
        simp only [List.get?_cons_zero, Option.some.injEq] at h
        subst h
        exact absurd hstop hc
      | k + 1 =>
        simp only [List.get?_cons_succ] at h
        simp [ih (bufAfter ips symtab maxLen i) k v h hstop]

/-- If the visitor returns `false` (continue) at the `k`-th visit and the
iteration range has further indices, the loop goes on to visit the next
frame. -/
theorem traceLoop_continue (ips sps : List Nat)
    (symtab : Nat → Option (List Char)) (cb : Frame → Nat → Bool)
    (depth maxLen : Nat) :
    ∀ (l : List Nat) (buf : List Char) (k : Nat) (v : Frame × Nat),
      (traceLoop ips sps symtab cb depth maxLen l buf).get? k = some v →
      cb v.1 v.2 = false →
      k + 1 < l.length →
      k + 1 < (traceLoop ips sps symtab cb depth maxLen l buf).length := by
  intro l
  induction l with
  | nil => intro buf k v h _ _; simp [traceLoop] at h
  | cons i rest ih =>
    intro buf k v h hcont hlen
    rw [traceLoop_cons] at h ⊢
    by_cases hc : cb (frameAt ips sps symtab maxLen i) (depth - i) = true
    · simp only [hc, if_true] at h
      match k with
      | 0 =>
        simp only [List.get?_cons_zero, Option.some.injEq] at h
        subst h
        rw [hcont] at hc
        exact absurd hc (by simp)
      | k + 1 => simp at h
    · simp only [hc, if_false, Bool.false_eq_true] at h ⊢
      match k with
      | 0 =>
        simp only [List.length_cons, Nat.lt_add_one_iff, Nat.succ_le_iff]
        match rest, hlen with
        | j :: rest2, _ =>
          exact traceLoop_pos ips sps symtab cb depth maxLen j rest2 _
      | k + 1 =>
        simp only [List.get?_cons_succ] at h
        simp only [List.length_cons, Nat.add_lt_add_iff_right] at hlen ⊢
        exact ih (bufAfter ips symtab maxLen i) k v h hcont hlen

/-- Closed form of `trace`: the effective depth is the minimum of the two
reported depths, and the visits are the loop run over `0, …, depth - 1`
starting from the zero-initialized buffer. -/
theorem trace_def (ipStack spStack : List Nat) (symtab : Nat → Option (List Char))
    (cb : Frame → Nat → Bool) (maxFrames maxLen : Nat) :
    trace ipStack spStack symtab cb maxFrames maxLen =
      { depth := min (GetStackTrace ipStack maxFrames 1).length
                     (GetStackFrames spStack maxFrames 1).length
        visits := traceLoop (GetStackTrace ipStack maxFrames 1)
            (GetStackFrames spStack maxFrames 1) symtab cb
            (min (GetStackTrace ipStack maxFrames 1).length
                 (GetStackFrames spStack maxFrames 1).length) maxLen
            (List.range (min (GetStackTrace ipStack maxFrames 1).length
                             (GetStackFrames spStack maxFrames 1).length))
            (List.replicate maxLen '\x00') } := by
  have hmin : ∀ a b : Nat, (if a > b then b else a) = min a b := by
    intro a b
    by_cases hab : a > b <;> simp [hab] <;> omega
  simp only [trace, hmin]

/-! ## Claim theorems -/

/-- C2: for every `trace()` invocation, when the instruction-pointer walk
and the stack-pointer walk report depths `d1` and `d2`, the effective
depth — the value `trace()` returns — is `min d1 d2`. -/
theorem trace_depth_eq_min (ipStack spStack : List Nat)
    (symtab : Nat → Option (List Char)) (cb : Frame → Nat → Bool)
    (maxFrames maxLen : Nat) :
    (trace ipStack spStack symtab cb maxFrames maxLen).depth =
      min (GetStackTrace ipStack maxFrames 1).length
          (GetStackFrames spStack maxFrames 1).length := by
  rw [trace_def]

/-- C6: the number of frames captured by either walk, the value `trace()`
returns, and the number of visitor invocations never exceed the fixed
maximum depth bound `maxFrames`, whatever the true call depth. -/
theorem trace_bounded (ipStack spStack : List Nat)
    (symtab : Nat → Option (List Char)) (cb : Frame → Nat → Bool)
    (maxFrames maxLen : Nat) :
    (GetStackTrace ipStack maxFrames 1).length ≤ maxFrames ∧
    (GetStackFrames spStack maxFrames 1).length ≤ maxFrames ∧
    (trace ipStack spStack symtab cb maxFrames maxLen).depth ≤ maxFrames ∧
    (trace ipStack spStack symtab cb maxFrames maxLen).visits.length ≤ maxFrames := by
  have h1 : (GetStackTrace ipStack maxFrames 1).length ≤ maxFrames := by
    simp [GetStackTrace, List.length_take]
  have h2 : (GetStackFrames spStack maxFrames 1).length ≤ maxFrames := by
    simp [GetStackFrames, List.length_take]
  have h3 : (trace ipStack spStack symtab cb maxFrames maxLen).depth ≤ maxFrames := by
    rw [trace_def]
    exact le_trans (Nat.min_le_left _ _) h1
  refine ⟨h1, h2, h3, ?_⟩
  rw [trace_def]
  calc (traceLoop (GetStackTrace ipStack maxFrames 1)
          (GetStackFrames spStack maxFrames 1) symtab cb
          (min (GetStackTrace ipStack maxFrames 1).length
               (GetStackFrames spStack maxFrames 1).length) maxLen
          (List.range (min (GetStackTrace ipStack maxFrames 1).length
                           (GetStackFrames spStack maxFrames 1).length))
          (List.replicate maxLen '\x00')).length
      ≤ (List.range (min (GetStackTrace ipStack maxFrames 1).length
                         (GetStackFrames spStack maxFrames 1).length)).length :=
        traceLoop_length_le _ _ _ _ _ _ _ _
    _ ≤ maxFrames := by
        rw [List.length_range]
        exact le_trans (Nat.min_le_left _ _) h1

/-- C1 (amended): the `k`-th visitor invocation carries
`displayIndex = effective_depth − k`; consequently displayIndexes strictly
decrease along the visitation order, so the innermost visited frame (the
first visit) receives the highest displayIndex and the outermost visited
frame receives the lowest. -/
theorem trace_displayIndex (ipStack spStack : List Nat)
    (symtab : Nat → Option (List Char)) (cb : Frame → Nat → Bool)
    (maxFrames maxLen : Nat) (k : Nat) (v : Frame × Nat)
    (h : (trace ipStack spStack symtab cb maxFrames maxLen).visits.get? k = some v) :
    v.2 = (trace ipStack spStack symtab cb maxFrames maxLen).depth - k ∧
    k < (trace ipStack spStack symtab cb maxFrames maxLen).depth ∧
    ∀ j w, j < k →
      (trace ipStack spStack symtab cb maxFrames maxLen).visits.get? j = some w →
      v.2 < w.2 := by
  rw [trace_def] at h ⊢
  have hk : k < (traceLoop (GetStackTrace ipStack maxFrames 1)
      (GetStackFrames spStack maxFrames 1) symtab cb
      (min (GetStackTrace ipStack maxFrames 1).length
           (GetStackFrames spStack maxFrames 1).length) maxLen
      (List.range (min (GetStackTrace ipStack maxFrames 1).length
                       (GetStackFrames spStack maxFrames 1).length))
      (List.replicate maxLen '\x00')).length := List.get?_eq_some.mp h |>.1
  obtain ⟨j, hj1, hj2⟩ := traceLoop_get _ _ _ _ _ _ _ _ _ hk
  have hkd : k < min (GetStackTrace ipStack maxFrames 1).length
      (GetStackFrames spStack maxFrames 1).length := by
    have := List.get?_eq_some.mp hj1 |>.1
    simpa [List.length_range] using this
  rw [List.get?_range hkd] at hj1
  have hjk : j = k := by simpa using hj1.symm
  subst hjk
  rw [h] at hj2
  have hv2 : v.2 = min (GetStackTrace ipStack maxFrames 1).length
      (GetStackFrames spStack maxFrames 1).length - j := by
    have := (Option.some.injEq _ _).mp hj2
    rw [this]
  refine ⟨hv2, hkd, ?_⟩
  intro j2 w hlt hw
  have hk2 : j2 < (traceLoop (GetStackTrace ipStack maxFrames 1)
      (GetStackFrames spStack maxFrames 1) symtab cb
      (min (GetStackTrace ipStack maxFrames 1).length
           (GetStackFrames spStack maxFrames 1).length) maxLen
      (List.range (min (GetStackTrace ipStack maxFrames 1).length
                       (GetStackFrames spStack maxFrames 1).length))
      (List.replicate maxLen '\x00')).length := List.get?_eq_some.mp hw |>.1
  obtain ⟨j3, hj31, hj32⟩ := traceLoop_get _ _ _ _ _ _ _ _ _ hk2
  rw [List.get?_range (lt_trans hlt hkd)] at hj31
  have hj3e : j3 = j2 := by simpa using hj31.symm
  subst hj3e
  rw [hw] at hj32
  have hw2 : w.2 = min (GetStackTrace ipStack maxFrames 1).length
      (GetStackFrames spStack maxFrames 1).length - j3 := by
    have := (Option.some.injEq _ _).mp hj32
    rw [this]
  rw [hv2, hw2]
  omega

/-- C1 counterexample: on a three-frame stack (two frames after the skip)
with no symbols, the visits carry displayIndexes `[2, 1]` in visitation
order — the innermost visited frame (the first visit, index 0 of the raw
walk) receives `2` while the outermost receives `1`, so the innermost does
NOT receive the lowest displayIndex. -/
theorem trace_displayIndex_cex :
    ((Stx.trace [10, 20, 30] [11, 21, 31] (fun _ => none) (fun _ _ => false)
        5 4).visits.map Prod.snd = [2, 1]) ∧
    ¬ (∀ a ∈ (Stx.trace [10, 20, 30] [11, 21, 31] (fun _ => none)
          (fun _ _ => false) 5 4).visits.map Prod.snd,
        ∀ b ∈ (Stx.trace [10, 20, 30] [11, 21, 31] (fun _ => none)
          (fun _ _ => false) 5 4).visits.map Prod.snd,
        ((Stx.trace [10, 20, 30] [11, 21, 31] (fun _ => none)
          (fun _ _ => false) 5 4).visits.map Prod.snd).get? 0 = some a →
        a ≤ b) := by
  constructor
  · decide
  · intro hmono
    have := hmono 2 (by decide) 1 (by decide) (by decide)
    omega

/-- Witness for C1 (amended): on the concrete two-visit trace, the second
visit exists and its iteration index `1` is below the effective depth
`2`; its displayIndex is `2 - 1 = 1`, below the first visit's `2`. -/
theorem trace_displayIndex_witness :
    ((Stx.trace [10, 20, 30] [11, 21, 31] (fun _ => none) (fun _ _ => false)
        5 4).visits.get? 1 = some (⟨some 30, some 31, none⟩, 1)) ∧
    1 < (Stx.trace [10, 20, 30] [11, 21, 31] (fun _ => none) (fun _ _ => false)
        5 4).depth :=
  ⟨by decide,
    (trace_displayIndex [10, 20, 30] [11, 21, 31] (fun _ => none)
      (fun _ _ => false) 5 4 1 (⟨some 30, some 31, none⟩, 1) (by decide)).2.1⟩

/-- C5: if the visitor returns `true` (stop) at the `k`-th visit —
including the very first — iteration ends immediately with exactly
`k + 1` visits, yet `trace()` still returns the full effective depth
(the minimum of the two reported depths). -/
theorem trace_early_stop (ipStack spStack : List Nat)
    (symtab : Nat → Option (List Char)) (cb : Frame → Nat → Bool)
    (maxFrames maxLen : Nat) (k : Nat) (v : Frame × Nat)
    (h : (trace ipStack spStack symtab cb maxFrames maxLen).visits.get? k = some v)
    (hstop : cb v.1 v.2 = true) :
    (trace ipStack spStack symtab cb maxFrames maxLen).visits.length = k + 1 ∧
    (trace ipStack spStack symtab cb maxFrames maxLen).depth =
      min (GetStackTrace ipStack maxFrames 1).length
          (GetStackFrames spStack maxFrames 1).length := by
  rw [trace_def] at h ⊢
  exact ⟨traceLoop_stop _ _ _ _ _ _ _ _ _ _ h hstop, rfl⟩

/-- Witness for C5: a visitor stopping on its very first invocation is
invoked exactly once, while the returned depth is the full effective
depth `2` of the two-frame walks. -/
theorem trace_early_stop_witness :
    ((Stx.trace [10, 20, 30] [11, 21, 31] (fun _ => none) (fun _ _ => true)
        5 4).visits.length = 0 + 1 ∧
      (Stx.trace [10, 20, 30] [11, 21, 31] (fun _ => none) (fun _ _ => true)
          5 4).depth =
        min (GetStackTrace [10, 20, 30] 5 1).length
            (GetStackFrames [11, 21, 31] 5 1).length) :=
  trace_early_stop [10, 20, 30] [11, 21, 31] (fun _ => none) (fun _ _ => true)
    5 4 0 (⟨some 20, some 21, none⟩, 2) (by decide) (by decide)

/-- C7: for the `k`-th visited frame, if resolution of its address fails
the frame's symbol is absent (never stale text from an earlier frame); if
it succeeds the symbol wraps exactly the write of the name into a freshly
zeroed buffer (the buffer is zeroed before the attempt, so no residue of
previous contents survives); and a resolution failure does not halt the
trace — when the visitor continues and further iteration indices remain,
the next frame is visited too. -/
theorem trace_symbol_handling (ipStack spStack : List Nat)
    (symtab : Nat → Option (List Char)) (cb : Frame → Nat → Bool)
    (maxFrames maxLen : Nat) (k : Nat) (v : Frame × Nat)
    (h : (trace ipStack spStack symtab cb maxFrames maxLen).visits.get? k = some v) :
    (symtab ((GetStackTrace ipStack maxFrames 1).getD k 0) = none →
      v.1.symbol = none) ∧
    (∀ name, symtab ((GetStackTrace ipStack maxFrames 1).getD k 0) = some name →
      v.1.symbol = some ⟨(Symbolize symtab
        ((GetStackTrace ipStack maxFrames 1).getD k 0)
        (List.replicate maxLen '\x00')).2⟩) ∧
    (cb v.1 v.2 = false →
      k + 1 < (trace ipStack spStack symtab cb maxFrames maxLen).depth →
      k + 1 < (trace ipStack spStack symtab cb maxFrames maxLen).visits.length) := by
  rw [trace_def] at h ⊢
  have hk : k < (traceLoop (GetStackTrace ipStack maxFrames 1)
      (GetStackFrames spStack maxFrames 1) symtab cb
      (min (GetStackTrace ipStack maxFrames 1).length
           (GetStackFrames spStack maxFrames 1).length) maxLen
      (List.range (min (GetStackTrace ipStack maxFrames 1).length
                       (GetStackFrames spStack maxFrames 1).length))
      (List.replicate maxLen '\x00')).length := List.get?_eq_some.mp h |>.1
  obtain ⟨j, hj1, hj2⟩ := traceLoop_get _ _ _ _ _ _ _ _ _ hk
  have hkd : k < min (GetStackTrace ipStack maxFrames 1).length
      (GetStackFrames spStack maxFrames 1).length := by
    have := List.get?_eq_some.mp hj1 |>.1
    simpa [List.length_range] using this
  rw [List.get?_range hkd] at hj1
  have hjk : j = k := by simpa using hj1.symm
  subst hjk
  rw [h] at hj2
  have hv : v = (frameAt (GetStackTrace ipStack maxFrames 1)
      (GetStackFrames spStack maxFrames 1) symtab maxLen j,
      min (GetStackTrace ipStack maxFrames 1).length
          (GetStackFrames spStack maxFrames 1).length - j) :=
    (Option.some.injEq _ _).mp hj2
  refine ⟨?_, ?_, ?_⟩
  · intro hnone
    rw [hv]
    simp only [frameAt, Symbolize]
    rw [hnone]
    simp
  · intro name hname
    rw [hv]
    simp only [frameAt, Symbolize]
    rw [hname]
    simp
  · intro hcont hdep
    have hlen2 : j + 1 < (List.range (min (GetStackTrace ipStack maxFrames 1).length
        (GetStackFrames spStack maxFrames 1).length)).length := by
      simpa [List.length_range] using hdep
    exact traceLoop_continue _ _ _ _ _ _ _ _ _ _ h hcont hlen2

/-- Witness for C7: with an empty symbol table, the first visited frame of
the concrete trace has an absent symbol, and since the visitor continues,
the second frame is visited as well. -/
theorem trace_symbol_handling_witness :
    ((Stx.trace [10, 20, 30] [11, 21, 31] (fun _ => none) (fun _ _ => false)
        5 4).visits.get? 0 = some (⟨some 20, some 21, none⟩, 2)) ∧
    ((⟨some 20, some 21, none⟩ : Stx.Frame), 2).1.symbol = none ∧
    0 + 1 < (Stx.trace [10, 20, 30] [11, 21, 31] (fun _ => none)
        (fun _ _ => false) 5 4).visits.length :=
  ⟨by decide,
    (trace_symbol_handling [10, 20, 30] [11, 21, 31] (fun _ => none)
      (fun _ _ => false) 5 4 0 (⟨some 20, some 21, none⟩, 2) (by decide)).1 rfl,
    (trace_symbol_handling [10, 20, 30] [11, 21, 31] (fun _ => none)
      (fun _ _ => false) 5 4 0 (⟨some 20, some 21, none⟩, 2) (by decide)).2.2
      rfl (by decide)⟩

/-- C10: every frame handed to the visitor has a present instruction
pointer and a present stack pointer; only the symbol field can ever be
absent. -/
theorem trace_ip_sp_present (ipStack spStack : List Nat)
    (symtab : Nat → Option (List Char)) (cb : Frame → Nat → Bool)
    (maxFrames maxLen : Nat) :
    ∀ v ∈ (trace ipStack spStack symtab cb maxFrames maxLen).visits,
      v.1.ip.isSome = true ∧ v.1.sp.isSome = true := by
  intro v hv
  obtain ⟨k, hk⟩ := List.mem_iff_get?.mp hv
  rw [trace_def] at hk
  have hklen : k < (traceLoop (GetStackTrace ipStack maxFrames 1)
      (GetStackFrames spStack maxFrames 1) symtab cb
      (min (GetStackTrace ipStack maxFrames 1).length
           (GetStackFrames spStack maxFrames 1).length) maxLen
      (List.range (min (GetStackTrace ipStack maxFrames 1).length
                       (GetStackFrames spStack maxFrames 1).length))
      (List.replicate maxLen '\x00')).length := List.get?_eq_some.mp hk |>.1
  obtain ⟨j, _, hj2⟩ := traceLoop_get _ _ _ _ _ _ _ _ _ hklen
  rw [hk] at hj2
  have hv2 := (Option.some.injEq _ _).mp hj2
  rw [hv2]
  constructor <;> simp [frameAt]

/-- Witness for C10: the first visit of the concrete trace is a member of
the visit list and its instruction and stack pointers are present. -/
theorem trace_ip_sp_present_witness :
    (((⟨some 20, some 21, none⟩ : Stx.Frame), 2) ∈
      (Stx.trace [10, 20, 30] [11, 21, 31] (fun _ => none) (fun _ _ => false)
        5 4).visits) ∧
    ((⟨some 20, some 21, none⟩ : Stx.Frame), 2).1.ip.isSome = true ∧
    ((⟨some 20, some 21, none⟩ : Stx.Frame), 2).1.sp.isSome = true :=
  ⟨by decide,
    trace_ip_sp_present [10, 20, 30] [11, 21, 31] (fun _ => none)
      (fun _ _ => false) 5 4 (⟨some 20, some 21, none⟩, 2) (by decide)⟩

/-- C3: on a supported signal the OS accepts, `handle_signal` returns
`Ok` carrying the previously installed handler; calling it twice in
succession makes the second call succeed and return the internal handler
installed by the first call (last-writer-wins), not the original
disposition. -/
theorem handle_signal_chain (os : OS) (sig : Nat)
    (hsup : sig = SIGSEGV ∨ sig = SIGILL ∨ sig = SIGFPE)
    (hacc : os.accepts sig = true) :
    (handle_signal os sig).1 = Except.ok (os.disposition sig) ∧
    (handle_signal (handle_signal os sig).2 sig).1 =
      Except.ok Handler.internal := by
  have hcond : ¬ (sig ≠ SIGSEGV ∧ sig ≠ SIGILL ∧ sig ≠ SIGFPE) := by
    rcases hsup with h | h | h <;> simp [h]
  constructor
  · simp [handle_signal, hcond, stdSignal, hacc]
  · simp [handle_signal, hcond, stdSignal, hacc]

/-- Witness for C3: with every disposition at the OS default and the OS
accepting everything, registering `SIGSEGV` twice returns the default
first and the internal handler second. -/
theorem handle_signal_chain_witness :
    (Stx.handle_signal ⟨fun _ => Handler.dfl, fun _ => true⟩ SIGSEGV).1 =
      Except.ok Handler.dfl ∧
    (Stx.handle_signal
        (Stx.handle_signal ⟨fun _ => Handler.dfl, fun _ => true⟩ SIGSEGV).2
        SIGSEGV).1 =
      Except.ok Handler.internal :=
  handle_signal_chain ⟨fun _ => Handler.dfl, fun _ => true⟩ SIGSEGV
    (Or.inl rfl) rfl

/-- C4: `handle_signal` fails with `Unknown` exactly on signals outside
the supported set, fails with `SigErr` exactly when the signal is
supported but the OS rejects the registration, and in either error case
leaves the OS dispositions entirely unchanged. -/
theorem handle_signal_errors (os : OS) (sig : Nat) :
    ((handle_signal os sig).1 = Except.error SignalError.Unknown ↔
      ¬ (sig = SIGSEGV ∨ sig = SIGILL ∨ sig = SIGFPE)) ∧
    ((handle_signal os sig).1 = Except.error SignalError.SigErr ↔
      ((sig = SIGSEGV ∨ sig = SIGILL ∨ sig = SIGFPE) ∧
        os.accepts sig = false)) ∧
    (∀ e, (handle_signal os sig).1 = Except.error e →
      (handle_signal os sig).2 = os) := by
  by_cases hsup : sig = SIGSEGV ∨ sig = SIGILL ∨ sig = SIGFPE
  · have hcond : ¬ (sig ≠ SIGSEGV ∧ sig ≠ SIGILL ∧ sig ≠ SIGFPE) := by
      rcases hsup with h | h | h <;> simp [h]
    by_cases hacc : os.accepts sig = true
    · refine ⟨?_, ?_, ?_⟩
      · simp [handle_signal, hcond, stdSignal, hacc, hsup]
      · simp [handle_signal, hcond, stdSignal, hacc]
      · intro e he
        simp [handle_signal, hcond, stdSignal, hacc] at he
    · have hacc2 : os.accepts sig = false := by
        revert hacc
        cases os.accepts sig <;> simp
      refine ⟨?_, ?_, ?_⟩
      · simp [handle_signal, hcond, stdSignal, hacc2, hsup]
      · simp [handle_signal, hcond, stdSignal, hacc2, hsup]
      · intro e _
        simp [handle_signal, hcond, stdSignal, hacc2]
  · have hcond : sig ≠ SIGSEGV ∧ sig ≠ SIGILL ∧ sig ≠ SIGFPE := by
      refine ⟨?_, ?_, ?_⟩ <;> intro h <;> exact hsup (by simp [h])
    refine ⟨?_, ?_, ?_⟩
    · simp [handle_signal, hcond, hsup]
    · simp [handle_signal, hcond, hsup]
    · intro e _
      simp [handle_signal, hcond]

/-- Witness for C4: `SIGTERM` (an unsupported termination-request signal)
fails with `Unknown` and the OS state is returned unchanged; on `SIGSEGV`
with a rejecting OS the failure is `SigErr` and the state is unchanged. -/
theorem handle_signal_errors_witness :
    ((Stx.handle_signal ⟨fun _ => Handler.dfl, fun _ => true⟩ SIGTERM).1 =
        Except.error SignalError.Unknown ∧
      (Stx.handle_signal ⟨fun _ => Handler.dfl, fun _ => true⟩ SIGTERM).2 =
        (⟨fun _ => Handler.dfl, fun _ => true⟩ : OS)) ∧
    ((Stx.handle_signal ⟨fun _ => Handler.dfl, fun _ => false⟩ SIGSEGV).1 =
        Except.error SignalError.SigErr ∧
      (Stx.handle_signal ⟨fun _ => Handler.dfl, fun _ => false⟩ SIGSEGV).2 =
        (⟨fun _ => Handler.dfl, fun _ => false⟩ : OS)) :=
  ⟨⟨(handle_signal_errors ⟨fun _ => Handler.dfl, fun _ => true⟩ SIGTERM).1.mpr
      (by decide),
    (handle_signal_errors ⟨fun _ => Handler.dfl, fun _ => true⟩ SIGTERM).2.2
      SignalError.Unknown
      ((handle_signal_errors ⟨fun _ => Handler.dfl, fun _ => true⟩
          SIGTERM).1.mpr (by decide))⟩,
    ⟨(handle_signal_errors ⟨fun _ => Handler.dfl, fun _ => false⟩
        SIGSEGV).2.1.mpr ⟨Or.inl rfl, rfl⟩,
      (handle_signal_errors ⟨fun _ => Handler.dfl, fun _ => false⟩
          SIGSEGV).2.2 SignalError.SigErr
        ((handle_signal_errors ⟨fun _ => Handler.dfl, fun _ => false⟩
            SIGSEGV).2.1.mpr ⟨Or.inl rfl, rfl⟩)⟩⟩

/-- C8: on every supported fatal signal the installed handler writes the
signal-specific diagnostic of the fixed mapping, then invokes the Crash
Reporter (`print_backtrace`), then terminates through `std::abort()`; the
abort is the final action, so control never returns to the faulted
code. -/
theorem signal_handler_spec (sig : Nat)
    (hsup : sig = SIGSEGV ∨ sig = SIGILL ∨ sig = SIGFPE) :
    signal_handler sig =
      [Event.write "\n\n",
        Event.write
          (if sig = SIGSEGV then
            "Received \x27SIGSEGV\x27 signal. Invalid memory access occurred (segmentation fault)."
          else if sig = SIGILL then
            "Received \x27SIGILL\x27 signal. Invalid program image (illegal/invalid instruction, i.e. nullptr dereferencing)."
          else
            "Received \x27SIGFPE\x27 signal. Erroneous arithmetic operation (i.e. divide by zero)."),
        Event.backtraceReport,
        Event.abort] ∧
    (signal_handler sig).getLast? = some Event.abort := by
  rcases hsup with h | h | h <;> subst h <;> exact ⟨rfl, rfl⟩

/-- Witness for C8: on `SIGSEGV` the handler emits exactly the
segmentation-fault diagnostic, the report, and a final abort. -/
theorem signal_handler_spec_witness :
    Stx.signal_handler SIGSEGV =
      [Event.write "\n\n",
        Event.write
          (if SIGSEGV = SIGSEGV then
            "Received \x27SIGSEGV\x27 signal. Invalid memory access occurred (segmentation fault)."
          else if SIGSEGV = SIGILL then
            "Received \x27SIGILL\x27 signal. Invalid program image (illegal/invalid instruction, i.e. nullptr dereferencing)."
          else
            "Received \x27SIGFPE\x27 signal. Erroneous arithmetic operation (i.e. divide by zero)."),
        Event.backtraceReport,
        Event.abort] ∧
    (Stx.signal_handler SIGSEGV).getLast? = some Event.abort :=
  signal_handler_spec SIGSEGV (Or.inl rfl)

/-- C9 counterexample: with no compiler introspection available,
`SourceLocation::current()` does not produce empty text for the file and
function fields — it produces the literal `"unknown"` placeholders. -/
theorem source_location_fallback_cex :
    ¬ ((SourceLocation.current ⟨false, "a.cc", false, "main", false, 7,
          false, 2⟩).file_name = "" ∧
       (SourceLocation.current ⟨false, "a.cc", false, "main", false, 7,
          false, 2⟩).function_name = "" ∧
       (SourceLocation.current ⟨false, "a.cc", false, "main", false, 7,
          false, 2⟩).line = 0 ∧
       (SourceLocation.current ⟨false, "a.cc", false, "main", false, 7,
          false, 2⟩).column = 0) := by
  decide

/-- C9 (amended): when compiler call-site introspection is unsupported,
`SourceLocation::current()` falls back to the text `"unknown"` for the
file and function fields and zero for the line and column fields. -/
theorem source_location_fallback (b : Builtins)
    (hf : b.hasFILE = false) (hfn : b.hasFUNCTION = false)
    (hl : b.hasLINE = false) (hc : b.hasCOLUMN = false) :
    (SourceLocation.current b).file_name = "unknown" ∧
    (SourceLocation.current b).function_name = "unknown" ∧
    (SourceLocation.current b).line = 0 ∧
    (SourceLocation.current b).column = 0 := by
  simp [SourceLocation.current, SourceLocation.file_name,
    SourceLocation.function_name, SourceLocation.line, SourceLocation.column,
    hf, hfn, hl, hc]

/-- Witness for C9 (amended): concrete unsupported-introspection builtins
yield the `"unknown"` / zero placeholders. -/
theorem source_location_fallback_witness :
    (SourceLocation.current ⟨false, "a.cc", false, "main", false, 7,
        false, 2⟩).file_name = "unknown" ∧
    (SourceLocation.current ⟨false, "a.cc", false, "main", false, 7,
        false, 2⟩).function_name = "unknown" ∧
    (SourceLocation.current ⟨false, "a.cc", false, "main", false, 7,
        false, 2⟩).line = 0 ∧
    (SourceLocation.current ⟨false, "a.cc", false, "main", false, 7,
        false, 2⟩).column = 0 :=
  source_location_fallback ⟨false, "a.cc", false, "main", false, 7, false, 2⟩
    rfl rfl rfl rfl

end Stx
